import Mathlib

/-!
Verification of the king_coin single-coin ledger (src/python/king_coin.py).

The embedding models byte strings as `List Nat` and the RSA-PSS signature
scheme symbolically: a signature records the signing key and the signed
message, and verification checks that the recorded key matches the public
key and the recorded message matches the payload (the standard idealized
model of an unforgeable signature scheme).  Key pairs are identified with a
single `Nat` (`pubOf` is the identity), so "knowing the private key" and
"being the owner of the public key" coincide, as they do for the honestly
generated keys of the source.
-/

namespace KingCoin

/-- Byte strings (`bytes` / `bytearray` in the source). -/
abbrev Bytes := List Nat

/-- `Coin`: frozen dataclass with fields `cid` and `currency`. -/
structure Coin where
  cid : Bytes
  currency : String
deriving DecidableEq

/-- `TransactionType`: the `Enum` with members `mint` and `transfer`. -/
inductive TransactionType where
  | mint
  | transfer
deriving DecidableEq

/-- Symbolic signature value: the private key that produced it and the
message that was signed (idealized model of `private_key.sign`). -/
structure Sig where
  key : Nat
  msg : Bytes
deriving DecidableEq

/-- `private_key.sign(msg, ...)` in the symbolic model. -/
def sign (sk : Nat) (msg : Bytes) : Sig := ⟨sk, msg⟩

/-- The public key paired with a private key; key pairs are identified
with one `Nat`, so this is the identity. -/
def pubOf (sk : Nat) : Nat := sk

/-- `public_key.verify(sig, msg, ...)`: `true` means the call returns,
`false` means it raises `InvalidSignature`. -/
def verify (pk : Nat) (sig : Sig) (msg : Bytes) : Bool :=
  sig.key == pk && sig.msg == msg

/-- `public_key.public_bytes(Encoding.PEM, PublicFormat.SubjectPublicKeyInfo)`:
an injective byte encoding of a public key. -/
def pem (pk : Nat) : Bytes := [pk]

/-- The immutable data of a `Party` that a `Transaction` refers to through
its `party_from` / `party_to` object references: the party's `name` and
`public_key` (both are set in `__init__` and never reassigned). -/
structure PartyRef where
  name : String
  pubKey : Nat
deriving DecidableEq

/-- `Transaction`: frozen dataclass of king_coin.py. -/
structure Transaction where
  type : TransactionType
  coin : Coin
  content : Bytes
  currency : String
  party_from : PartyRef
  signature : Sig
  party_to : Option PartyRef := none
deriving DecidableEq

/-- Outcome of `Environment.validate`: normal return (`ok`), an
`InvalidSignature` exception from one of the `verify` calls
(`invalidSignature`), or an `IndexError` from indexing the ledger
(`indexError`). -/
inductive Verdict where
  | ok
  | invalidSignature
  | indexError
deriving DecidableEq

/-- The loop of `Environment.validate`:
`for i, transaction in enumerate(reversed(self.ledger[:-1])): ...`.
The first argument is the full ledger (used by the body's
`self.ledger[i + 1]`), the `Nat` is the running value of `i`, and the
list argument is the rest of `reversed(ledger[:-1])` still to visit. -/
def validateLoop (ledger : List Transaction) : Nat → List Transaction → Verdict
  | _, [] => .ok
  | i, tr :: rest =>
    if tr.type = .mint ∨ tr.party_to = none then .ok
    else
      match ledger[i + 1]? with
      | none => .indexError
      | some nxt =>
        if verify tr.party_from.pubKey nxt.signature tr.content
        then validateLoop ledger (i + 1) rest
        else .invalidSignature

/-- `Environment.validate(this_transaction)`.  It first verifies
`self.ledger[-1].signature` against `this_transaction.content` under
`this_transaction.party_from.public_key` (raising `IndexError` when the
ledger is empty), then runs the backward loop over `ledger[:-1]`. -/
def validate (ledger : List Transaction) (this_transaction : Transaction) : Verdict :=
  match ledger.getLast? with
  | none => .indexError
  | some last =>
    if verify this_transaction.party_from.pubKey last.signature this_transaction.content
    then validateLoop ledger 0 ledger.dropLast.reverse
    else .invalidSignature

/-- A `Party` (`Person` or `CoinMaker`): `name`, the private key `sk`
(standing for `_private_key`; `public_key = pubOf sk`), and the held-coin
set `pool`. -/
structure Party where
  name : String
  sk : Nat
  pool : Finset Coin

/-- `party.public_key`. -/
def Party.pubKey (p : Party) : Nat := pubOf p.sk

/-- The immutable reference data of `p` as recorded inside transactions. -/
def Party.ref (p : Party) : PartyRef := ⟨p.name, p.pubKey⟩

/-- `party.balance`: `len(self.pool)`. -/
def Party.balance (p : Party) : Nat := p.pool.card

/-- The exceptions the two `send_single_coin_to` methods can raise:
`Person` raises `RuntimeError(f"{name} does not have coin ...")`
(`coinNotHeld`), `CoinMaker` hits `KeyError` from `self.pool.remove(coin)`
(`keyError`). -/
inductive SendError where
  | coinNotHeld
  | keyError
deriving DecidableEq

/-- The `Transaction` built by `Person.send_single_coin_to`: content is
`coin.cid` followed by the PEM bytes of `to_public_key`, the currency is
`coin.currency`, and the signature is over the content. -/
def personSendTx (p : Party) (to_party : PartyRef) (to_public_key : Nat) (coin : Coin) :
    Transaction :=
  { type := .transfer
    coin := coin
    content := coin.cid ++ pem to_public_key
    currency := coin.currency
    party_from := p.ref
    signature := sign p.sk (coin.cid ++ pem to_public_key)
    party_to := some to_party }

/-- `Person.send_single_coin_to`: checks `_does_have_coin` first and raises
(`coinNotHeld`) before anything else happens; on success signs, builds the
transfer, removes the coin from the pool and returns the transaction.  The
returned `Party` is the sender's state after the call. -/
def personSend (p : Party) (to_party : PartyRef) (to_public_key : Nat) (coin : Coin) :
    Except SendError Transaction × Party :=
  if coin ∈ p.pool then
    (.ok (personSendTx p to_party to_public_key coin), { p with pool := p.pool.erase coin })
  else
    (.error .coinNotHeld, p)

/-- The `Transaction` built by `CoinMaker.send_single_coin_to`: same shape
as the `Person` one except the currency is `self.coin_name`. -/
def coinMakerSendTx (m : Party) (coin_name : String) (to_party : PartyRef)
    (to_public_key : Nat) (coin : Coin) : Transaction :=
  { type := .transfer
    coin := coin
    content := coin.cid ++ pem to_public_key
    currency := coin_name
    party_from := m.ref
    signature := sign m.sk (coin.cid ++ pem to_public_key)
    party_to := some to_party }

/-- `CoinMaker.send_single_coin_to`: no held-coin precondition check — it
signs and fully constructs the transfer first, and only the final
`self.pool.remove(coin)` raises (`KeyError`) when the coin is absent, in
which case the constructed transaction is discarded and the pool is left
unchanged. -/
def coinMakerSend (m : Party) (coin_name : String) (to_party : PartyRef)
    (to_public_key : Nat) (coin : Coin) : Except SendError Transaction × Party :=
  let transaction := coinMakerSendTx m coin_name to_party to_public_key coin
  if coin ∈ m.pool then
    (.ok transaction, { m with pool := m.pool.erase coin })
  else
    (.error .keyError, m)

/-- `CoinMaker.mint_single_coin`, with the random `os.urandom` coin id
passed in as `cid`: signs `coin.cid`, builds the mint transaction with
`party_to = None`, and adds the coin to the pool. -/
def mintSingleCoin (m : Party) (coin_name : String) (cid : Bytes) : Transaction × Party :=
  let coin : Coin := ⟨cid, coin_name⟩
  ({ type := .mint
     coin := coin
     content := coin.cid
     currency := coin_name
     party_from := m.ref
     signature := sign m.sk coin.cid
     party_to := none },
   { m with pool := insert coin m.pool })

/-- `Environment`: `alice`, `bob`, the coin maker, the `public_keys` dict
(modelled as an association list with Python-dict update semantics) and the
ledger.  `coin_name` carries the coin maker's `coin_name` attribute. -/
structure Environment where
  alice : Party
  bob : Party
  coin_maker : Party
  coin_name : String
  public_keys : List (String × Nat)
  ledger : List Transaction

/-- `Environment.__init__(coin_maker)`: fresh `Person("Alice")` and
`Person("Bob")`, empty dict and ledger.  The parties' randomly generated
private keys are passed in explicitly. -/
def initEnvironment (maker_name coin_name : String) (mk_sk a_sk b_sk : Nat) : Environment :=
  { alice := ⟨"Alice", a_sk, ∅⟩
    bob := ⟨"Bob", b_sk, ∅⟩
    coin_maker := ⟨maker_name, mk_sk, ∅⟩
    coin_name := coin_name
    public_keys := []
    ledger := [] }

/-- Python dict assignment `d[k] = v`: replace the binding of `k` if
present, otherwise append it. -/
def dictInsert : List (String × Nat) → String → Nat → List (String × Nat)
  | [], k, v => [(k, v)]
  | kv :: d, k, v => if kv.1 == k then (k, v) :: d else kv :: dictInsert d k v

/-- Python dict lookup `d[k]` (`none` models `KeyError`). -/
def dictGet : List (String × Nat) → String → Option Nat
  | [], _ => none
  | kv :: d, k => if kv.1 == k then some kv.2 else dictGet d k

/-- `Environment._get_public_keys`: `public_keys[party.name] = party.get_public_key()`
for alice, bob, then the coin maker, in that order. -/
def getPublicKeys (e : Environment) : List (String × Nat) :=
  dictInsert (dictInsert (dictInsert e.public_keys e.alice.name e.alice.pubKey)
    e.bob.name e.bob.pubKey) e.coin_maker.name e.coin_maker.pubKey

/-- The data produced by a completed `Environment.run`: the final
environment, the three appended transactions, and the result of the forged
verification attempt at the end (`false` means `InvalidSignature` was
raised and caught by the `try/except`). -/
structure RunResult where
  env : Environment
  transaction0 : Transaction
  transaction1 : Transaction
  transaction2 : Transaction
  forged_ok : Bool

/-- `Environment.run`, with the random mint coin id passed in as `cid`.
Returns `none` when an uncaught exception aborts the run (a failed
`verify` / `validate`, a failed send, or a `KeyError` on the dict lookup);
otherwise returns the final state and the appended transactions. -/
def run (e : Environment) (cid : Bytes) : Option RunResult :=
  let pks := getPublicKeys e
  let minted := mintSingleCoin e.coin_maker e.coin_name cid
  let transaction0 := minted.1
  let maker1 := minted.2
  let ledger1 := e.ledger ++ [transaction0]
  if verify transaction0.party_from.pubKey transaction0.signature transaction0.content then
    match coinMakerSend maker1 e.coin_name e.alice.ref e.alice.pubKey transaction0.coin with
    | (.error _, _) => none
    | (.ok transaction1, maker2) =>
      let ledger2 := ledger1 ++ [transaction1]
      if validate ledger2 transaction1 = .ok then
        let alice1 : Party := { e.alice with pool := insert transaction1.coin e.alice.pool }
        match personSend alice1 e.bob.ref e.bob.pubKey transaction1.coin with
        | (.error _, _) => none
        | (.ok transaction2, alice2) =>
          let ledger3 := ledger2 ++ [transaction2]
          if validate ledger3 transaction2 = .ok then
            let bob1 : Party := { e.bob with pool := insert transaction2.coin e.bob.pool }
            match dictGet pks e.coin_maker.name with
            | none => none
            | some maker_pk =>
              some { env := { e with
                              alice := alice2
                              bob := bob1
                              coin_maker := maker2
                              public_keys := pks
                              ledger := ledger3 }
                     transaction0 := transaction0
                     transaction1 := transaction1
                     transaction2 := transaction2
                     forged_ok := verify maker_pk transaction2.signature transaction2.content }
          else none
      else none
  else none

/-- Outcome of one orchestrated transfer round. -/
inductive RoundResult where
  | sendFailed (err : SendError)
  | validateFailed (v : Verdict)
  | success
deriving DecidableEq

/-- One alice→bob transfer round exactly as orchestrated by
`Environment.run`: send, append to the ledger, validate, and credit the
recipient only after validation succeeds.  If the send raises, the
exception propagates before any append or credit, so the environment is
returned unchanged; if `validate` raises after the append, the ledger
keeps the transaction and the recipient is not credited. -/
def transferRound (e : Environment) (coin : Coin) : Environment × RoundResult :=
  match personSend e.alice e.bob.ref e.bob.pubKey coin with
  | (.error err, alice1) => ({ e with alice := alice1 }, .sendFailed err)
  | (.ok transaction, alice1) =>
    let ledger1 := e.ledger ++ [transaction]
    let v := validate ledger1 transaction
    if v = .ok then
      ({ e with
         alice := alice1
         ledger := ledger1
         bob := { e.bob with pool := insert transaction.coin e.bob.pool } }, .success)
    else
      ({ e with alice := alice1, ledger := ledger1 }, .validateFailed v)

/-- One call of `Environment.validate` in state-passing form: the method
only reads `self.ledger` and performs `verify` calls; it assigns no
attribute, so the environment component of the result is the input
environment. -/
def callValidate (e : Environment) (t : Transaction) : Verdict × Environment :=
  (validate e.ledger t, e)

/-- `k + 1` successive calls of `Environment.validate` on the same
transaction, each running in the state left behind by the previous one. -/
def validateCalls (e : Environment) (t : Transaction) : Nat → Verdict × Environment
  | 0 => callValidate e t
  | k + 1 => callValidate (validateCalls e t k).2 t

/-- The three parties wired together by the orchestrated scenario
(`Environment.__init__`). -/
inductive PartyId where
  | alice
  | bob
  | maker
deriving DecidableEq

/-- Abstract state of the orchestrated scenario: each party's held-coin
set, the coins currently in flight (removed from the sender by
`send_single_coin_to` but not yet added to the receiver by the caller),
and the coin ids handed out so far by the `os.urandom` id source. -/
structure SysState where
  pools : PartyId → Finset Coin
  inflight : Finset Coin
  minted : Finset Bytes

/-- The initial state: all pools empty (`Party.__init__` starts each
`pool` as an empty set), nothing in flight, no id handed out. -/
def initState : SysState :=
  { pools := fun _ => ∅, inflight := ∅, minted := ∅ }

/-- The pool-mutating operations of the scenario.
`mint` is `CoinMaker.mint_single_coin` (`self.pool.add(coin)`), with the
id source assumed collision-free within a run (`cid ∉ s.minted`).
`debit` is the `self.pool.remove(coin)` of a successful
`send_single_coin_to`, which requires the sender to hold the coin.
`credit` is the caller's `recipient.pool.add(transaction.coin)` in
`Environment.run`, performed once per in-flight transfer after
validation. -/
inductive Step : SysState → SysState → Prop where
  | mint (s : SysState) (cid : Bytes) (coin_name : String) (h : cid ∉ s.minted) :
      Step s { pools := Function.update s.pools .maker
                 (insert ⟨cid, coin_name⟩ (s.pools .maker))
               inflight := s.inflight
               minted := insert cid s.minted }
  | debit (s : SysState) (p : PartyId) (c : Coin) (h : c ∈ s.pools p) :
      Step s { pools := Function.update s.pools p ((s.pools p).erase c)
               inflight := insert c s.inflight
               minted := s.minted }
  | credit (s : SysState) (q : PartyId) (c : Coin) (h : c ∈ s.inflight) :
      Step s { pools := Function.update s.pools q (insert c (s.pools q))
               inflight := s.inflight.erase c
               minted := s.minted }

/-- States reachable from the initial state by mint, debit and credit
steps. -/
inductive Reachable : SysState → Prop where
  | init : Reachable initState
  | step {s t : SysState} : Reachable s → Step s t → Reachable t

/-- The inductive invariant of the scenario: pools are pairwise disjoint,
no held coin is simultaneously in flight, and every coin anywhere came
from a recorded mint id. -/
def GoodState (s : SysState) : Prop :=
  (∀ p q : PartyId, p ≠ q → ∀ c ∈ s.pools p, c ∉ s.pools q) ∧
  (∀ p : PartyId, ∀ c ∈ s.pools p, c ∉ s.inflight) ∧
  (∀ p : PartyId, ∀ c ∈ s.pools p, c.cid ∈ s.minted) ∧
  (∀ c ∈ s.inflight, c.cid ∈ s.minted)

/-- The coin used by the concrete example ledgers below. -/
def exCoin : Coin := ⟨[9], "KC"⟩

/-- Mint transaction of `exCoin` by the maker (key 0), as built by
`mint_single_coin`. -/
def exTx0 : Transaction :=
  { type := .mint
    coin := exCoin
    content := [9]
    currency := "KC"
    party_from := ⟨"Mint", 0⟩
    signature := sign 0 [9]
    party_to := none }

/-- Transfer of `exCoin` from the maker (key 0) to Alice (key 1), as built
by `CoinMaker.send_single_coin_to`. -/
def exTx1 : Transaction :=
  { type := .transfer
    coin := exCoin
    content := [9] ++ pem 1
    currency := "KC"
    party_from := ⟨"Mint", 0⟩
    signature := sign 0 ([9] ++ pem 1)
    party_to := some ⟨"Alice", 1⟩ }

/-- Transfer of `exCoin` signed by Eve (key 2) naming Bob (key 3) as
recipient, built by `Person.send_single_coin_to` for a party that never
received the coin from Alice: an impersonation / double-spend attempt
whose own signature is nevertheless valid. -/
def exTx2 : Transaction :=
  { type := .transfer
    coin := exCoin
    content := [9] ++ pem 3
    currency := "KC"
    party_from := ⟨"Eve", 2⟩
    signature := sign 2 ([9] ++ pem 3)
    party_to := some ⟨"Bob", 3⟩ }

/-- A transfer of a coin that was never minted: no earlier ledger entry
references its coin id. -/
def exOrphan : Transaction :=
  { type := .transfer
    coin := ⟨[7], "KC"⟩
    content := [7] ++ pem 1
    currency := "KC"
    party_from := ⟨"Eve", 2⟩
    signature := sign 2 ([7] ++ pem 1)
    party_to := some ⟨"Alice", 1⟩ }

/-- The scenario state after the maker has minted `exCoin`. -/
def exState1 : SysState :=
  { pools := Function.update initState.pools .maker
      (insert exCoin (initState.pools .maker))
    inflight := initState.inflight
    minted := insert [9] initState.minted }

/-- A concrete freshly initialised environment (maker "Mint", currency
"KC", keys 0, 1, 2). -/
def exEnv : Environment := initEnvironment "Mint" "KC" 0 1 2

/-- A concrete holder with key 1 holding `exCoin`. -/
def exHolder : Party := ⟨"A", 1, {exCoin}⟩

/-- A concrete recipient with key 3 holding nothing. -/
def exRecipient : Party := ⟨"B", 3, ∅⟩

/-- A concrete coin maker with key 0 holding nothing. -/
def exMaker : Party := ⟨"Mint", 0, ∅⟩

/-- Claim C1 (code_bug evidence): in the ledger `[exTx0, exTx1, exTx2]`,
`exTx1` and `exTx2` are transfers of the same coin, `exTx1` is the most
recent prior transaction for that coin, and `exTx2`'s signer (Eve) is
neither `exTx1`'s recipient (Alice) nor its signer (the maker); the claim
says `validate` must fail with `UnauthorizedSender`, but the code has no
such check (nor such an error) and `validate` succeeds, even though
`exTx2` is an impersonation whose own signature is valid. -/
theorem kc_C1_eval :
    exTx1.type = .transfer ∧ exTx2.type = .transfer ∧
    exTx1.coin = exTx2.coin ∧
    exTx1.party_to = some ⟨"Alice", 1⟩ ∧
    exTx2.party_from ≠ (⟨"Alice", 1⟩ : PartyRef) ∧
    exTx2.party_from ≠ exTx1.party_from ∧
    verify exTx2.party_from.pubKey exTx2.signature exTx2.content = true ∧
    validate [exTx0, exTx1, exTx2] exTx2 = .ok := by decide

/-- Claim C2 (code_bug evidence): `exOrphan` is a transfer and the only
ledger entry, so no transaction at an earlier index references its coin
id; the claim says `validate` must fail with `BrokenChain`, but the code
never inspects coin ids (and has no such error) and `validate` succeeds. -/
theorem kc_C2_eval :
    exOrphan.type = .transfer ∧
    validate [exOrphan] exOrphan = .ok := by decide

/-- Claim C3, counterexample: for the historical transaction `exTx0` of
the ledger `[exTx0, exTx1]`, `exTx0`'s own signature over its own payload
verifies under its signer's key, yet `validate` fails with
`SignatureInvalid` — because the code verifies the LAST ledger entry's
signature (`exTx1.signature`) against `exTx0.content`, not `exTx0`'s own
signature, refuting "fails with SignatureInvalid exactly when that
verification fails" at historical indices. -/
theorem kc_C3_counterexample :
    verify exTx0.party_from.pubKey exTx0.signature exTx0.content = true ∧
    validate [exTx0, exTx1] exTx0 = .invalidSignature := by decide

/-- Claim C3, amended: for every transaction `t` and non-empty ledger,
`validate` first verifies the signature of the LAST ledger entry over
`t`'s own payload under `t`'s signer's public key (for the most recently
appended transaction this is `t`'s own signature) and fails with
`SignatureInvalid` when that verification fails; when `t` is the sole
ledger entry — as for the initial Mint — this check is the entire
validation. -/
theorem kc_C3_amended (l : List Transaction) (t last : Transaction)
    (h : l.getLast? = some last) :
    (verify t.party_from.pubKey last.signature t.content = false →
      validate l t = .invalidSignature) ∧
    (l = [t] → (validate l t = .ok ↔
      verify t.party_from.pubKey t.signature t.content = true)) := by
  constructor
  · intro hv
    simp [validate, h, hv]
  · rintro rfl
    have hl : t = last := by simpa using h
    subst hl
    by_cases hv : verify t.party_from.pubKey t.signature t.content = true
    · simp [validate, hv, validateLoop]
    · simp [validate, hv]

/-- Witness for `kc_C3_amended` at the singleton mint ledger. -/
theorem kc_C3_amended_witness :
    ([exTx0].getLast? = some exTx0) ∧
    ((verify exTx0.party_from.pubKey exTx0.signature exTx0.content = false →
      validate [exTx0] exTx0 = .invalidSignature) ∧
    ([exTx0] = [exTx0] → (validate [exTx0] exTx0 = .ok ↔
      verify exTx0.party_from.pubKey exTx0.signature exTx0.content = true))) :=
  ⟨rfl, kc_C3_amended [exTx0] exTx0 exTx0 rfl⟩

/-- After any number of repeated calls the state is still the input
state, and the verdict is the verdict of a single call. -/
theorem validateCalls_eq (e : Environment) (t : Transaction) (k : Nat) :
    validateCalls e t k = (validate e.ledger t, e) := by
  induction k with
  | zero => rfl
  | succ k ih => simp [validateCalls, ih, callValidate]

/-- Claim C4: `Environment.validate` assigns no attribute, so with the
ledger unchanged any two repeated calls on the same transaction return
the same verdict, and the environment is left exactly as it was:
validation is deterministic and idempotent. -/
theorem kc_C4 (e : Environment) (t : Transaction) (k₁ k₂ : Nat) :
    (validateCalls e t k₁).1 = (validateCalls e t k₂).1 ∧
    (validateCalls e t k₁).2 = e := by
  simp [validateCalls_eq]

/-- Claim C5: when a `Person` does not hold the coin, the very first
statement of `send_single_coin_to` raises (`CoinNotHeld`): no signature
is produced, no transaction is constructed, the sender's pool is returned
unchanged, and one orchestrated round on top of it leaves the whole
environment (both pools and the ledger) untouched. -/
theorem kc_C5 (e : Environment) (coin : Coin) (h : coin ∉ e.alice.pool) :
    personSend e.alice e.bob.ref e.bob.pubKey coin = (.error .coinNotHeld, e.alice) ∧
    transferRound e coin = (e, .sendFailed .coinNotHeld) := by
  have h1 : personSend e.alice e.bob.ref e.bob.pubKey coin =
      (.error .coinNotHeld, e.alice) := by
    simp [personSend, h]
  exact ⟨h1, by simp [transferRound, h1]⟩

/-- Witness for `kc_C5` on the freshly initialised environment. -/
theorem kc_C5_witness :
    (exCoin ∉ exEnv.alice.pool) ∧
    (personSend exEnv.alice exEnv.bob.ref exEnv.bob.pubKey exCoin =
      (.error .coinNotHeld, exEnv.alice) ∧
    transferRound exEnv exCoin = (exEnv, .sendFailed .coinNotHeld)) :=
  ⟨by decide, kc_C5 exEnv exCoin (by decide)⟩

/-- Claim C6: a successful send (both the `Person` and the `CoinMaker`
variant) of a held coin returns a `Transfer` transaction whose payload is
the byte concatenation of the coin id and the recipient's public key,
signed by the sender, with `signer = sender` and `recipient = r`, and
removes exactly that coin from the sender's pool: the balance drops by
one and every other coin's membership is unchanged; the ledger append and
the recipient's pool growth are left to the caller. -/
theorem kc_C6 (p r : Party) (coin_name : String) (coin : Coin) (h : coin ∈ p.pool) :
    (∃ tx q, personSend p r.ref r.pubKey coin = (.ok tx, q) ∧
      tx.type = .transfer ∧
      tx.coin = coin ∧
      tx.content = coin.cid ++ pem r.pubKey ∧
      tx.party_from = p.ref ∧
      tx.party_to = some r.ref ∧
      verify p.pubKey tx.signature tx.content = true ∧
      q.name = p.name ∧ q.sk = p.sk ∧
      coin ∉ q.pool ∧
      q.balance + 1 = p.balance ∧
      (∀ c : Coin, c ≠ coin → (c ∈ q.pool ↔ c ∈ p.pool))) ∧
    (∃ tx q, coinMakerSend p coin_name r.ref r.pubKey coin = (.ok tx, q) ∧
      tx.type = .transfer ∧
      tx.coin = coin ∧
      tx.content = coin.cid ++ pem r.pubKey ∧
      tx.party_from = p.ref ∧
      tx.party_to = some r.ref ∧
      verify p.pubKey tx.signature tx.content = true ∧
      coin ∉ q.pool ∧
      q.balance + 1 = p.balance ∧
      (∀ c : Coin, c ≠ coin → (c ∈ q.pool ↔ c ∈ p.pool))) := by
  constructor
  · refine ⟨personSendTx p r.ref r.pubKey coin, { p with pool := p.pool.erase coin },
      by simp [personSend, h], rfl, rfl, rfl, rfl, rfl, ?_, rfl, rfl,
      Finset.not_mem_erase coin p.pool, ?_, ?_⟩
    · simp [personSendTx, verify, sign, Party.pubKey, pubOf]
    · exact Finset.card_erase_add_one h
    · intro c hc
      simp [Finset.mem_erase, hc]
  · refine ⟨coinMakerSendTx p coin_name r.ref r.pubKey coin,
      { p with pool := p.pool.erase coin },
      by simp [coinMakerSend, h], rfl, rfl, rfl, rfl, rfl, ?_,
      Finset.not_mem_erase coin p.pool, ?_, ?_⟩
    · simp [coinMakerSendTx, verify, sign, Party.pubKey, pubOf]
    · exact Finset.card_erase_add_one h
    · intro c hc
      simp [Finset.mem_erase, hc]

/-- Witness for `kc_C6` at a concrete holder, recipient and coin. -/
theorem kc_C6_witness :
    (exCoin ∈ exHolder.pool) ∧
    ((∃ tx q, personSend exHolder exRecipient.ref exRecipient.pubKey exCoin = (.ok tx, q) ∧
      tx.type = .transfer ∧
      tx.coin = exCoin ∧
      tx.content = exCoin.cid ++ pem exRecipient.pubKey ∧
      tx.party_from = exHolder.ref ∧
      tx.party_to = some exRecipient.ref ∧
      verify exHolder.pubKey tx.signature tx.content = true ∧
      q.name = exHolder.name ∧ q.sk = exHolder.sk ∧
      exCoin ∉ q.pool ∧
      q.balance + 1 = exHolder.balance ∧
      (∀ c : Coin, c ≠ exCoin → (c ∈ q.pool ↔ c ∈ exHolder.pool))) ∧
    (∃ tx q, coinMakerSend exHolder "KC" exRecipient.ref exRecipient.pubKey exCoin =
        (.ok tx, q) ∧
      tx.type = .transfer ∧
      tx.coin = exCoin ∧
      tx.content = exCoin.cid ++ pem exRecipient.pubKey ∧
      tx.party_from = exHolder.ref ∧
      tx.party_to = some exRecipient.ref ∧
      verify exHolder.pubKey tx.signature tx.content = true ∧
      exCoin ∉ q.pool ∧
      q.balance + 1 = exHolder.balance ∧
      (∀ c : Coin, c ≠ exCoin → (c ∈ q.pool ↔ c ∈ exHolder.pool)))) :=
  ⟨by decide, kc_C6 exHolder exRecipient "KC" exCoin (by decide)⟩

/-- Claim C9: the `CoinMaker` variant of `send_single_coin_to` has no
held-coin check: for a coin the maker does not hold it still signs and
fully constructs the transfer transaction (with a valid signature over
the coin id and recipient key), and only the final `pool.remove` raises a
`KeyError` — not the `CoinNotHeld` error of the `Person` variant — with
the pool returned unchanged and the constructed transaction lost. -/
theorem kc_C9 (m : Party) (coin_name : String) (to_party : PartyRef) (to_pk : Nat)
    (coin : Coin) (h : coin ∉ m.pool) :
    coinMakerSend m coin_name to_party to_pk coin = (.error .keyError, m) ∧
    (coinMakerSendTx m coin_name to_party to_pk coin).type = .transfer ∧
    (coinMakerSendTx m coin_name to_party to_pk coin).coin = coin ∧
    (coinMakerSendTx m coin_name to_party to_pk coin).content = coin.cid ++ pem to_pk ∧
    (coinMakerSendTx m coin_name to_party to_pk coin).party_from = m.ref ∧
    (coinMakerSendTx m coin_name to_party to_pk coin).party_to = some to_party ∧
    verify m.pubKey (coinMakerSendTx m coin_name to_party to_pk coin).signature
      (coinMakerSendTx m coin_name to_party to_pk coin).content = true := by
  refine ⟨by simp [coinMakerSend, h], rfl, rfl, rfl, rfl, rfl, ?_⟩
  simp [coinMakerSendTx, verify, sign, Party.pubKey, pubOf]

/-- Witness for `kc_C9` at a concrete maker and unheld coin. -/
theorem kc_C9_witness :
    (exCoin ∉ exMaker.pool) ∧
    (coinMakerSend exMaker "KC" ⟨"B", 3⟩ 3 exCoin = (.error .keyError, exMaker) ∧
    (coinMakerSendTx exMaker "KC" ⟨"B", 3⟩ 3 exCoin).type = .transfer ∧
    (coinMakerSendTx exMaker "KC" ⟨"B", 3⟩ 3 exCoin).coin = exCoin ∧
    (coinMakerSendTx exMaker "KC" ⟨"B", 3⟩ 3 exCoin).content = exCoin.cid ++ pem 3 ∧
    (coinMakerSendTx exMaker "KC" ⟨"B", 3⟩ 3 exCoin).party_from = exMaker.ref ∧
    (coinMakerSendTx exMaker "KC" ⟨"B", 3⟩ 3 exCoin).party_to = some ⟨"B", 3⟩ ∧
    verify exMaker.pubKey (coinMakerSendTx exMaker "KC" ⟨"B", 3⟩ 3 exCoin).signature
      (coinMakerSendTx exMaker "KC" ⟨"B", 3⟩ 3 exCoin).content = true) :=
  ⟨by decide, kc_C9 exMaker "KC" ⟨"B", 3⟩ 3 exCoin (by decide)⟩

/-- The initial state satisfies the invariant. -/
theorem goodState_init : GoodState initState := by
  refine ⟨?_, ?_, ?_, ?_⟩ <;> simp [initState]

/-- Every mint, debit or credit step preserves the invariant. -/
theorem goodState_step {s t : SysState} (hg : GoodState s) (hs : Step s t) :
    GoodState t := by
  obtain ⟨h1, h2, h3, h4⟩ := hg
  cases hs with
  | mint cid coin_name hfresh =>
    have hnotpool : ∀ p : PartyId, (⟨cid, coin_name⟩ : Coin) ∉ s.pools p :=
      fun p hp => hfresh (h3 p _ hp)
    have hnotfl : (⟨cid, coin_name⟩ : Coin) ∉ s.inflight :=
      fun hin => hfresh (h4 _ hin)
    refine ⟨?_, ?_, ?_, ?_⟩
    · intro p q hpq c hcp hcq
      simp only [Function.update_apply] at hcp hcq
      by_cases hp : p = PartyId.maker
      · rw [if_pos hp] at hcp
        have hq : ¬q = PartyId.maker := fun hq => hpq (hp.trans hq.symm)
        rw [if_neg hq] at hcq
        rcases Finset.mem_insert.mp hcp with rfl | hcp2
        · exact hnotpool q hcq
        · exact h1 PartyId.maker q (fun hmq => hpq (hp.trans hmq)) c hcp2 hcq
      · rw [if_neg hp] at hcp
        by_cases hq : q = PartyId.maker
        · rw [if_pos hq] at hcq
          rcases Finset.mem_insert.mp hcq with rfl | hcq2
          · exact hnotpool p hcp
          · exact h1 p PartyId.maker hp c hcp hcq2
        · rw [if_neg hq] at hcq
          exact h1 p q hpq c hcp hcq
    · intro p c hcp
      simp only [Function.update_apply] at hcp
      by_cases hp : p = PartyId.maker
      · rw [if_pos hp] at hcp
        rcases Finset.mem_insert.mp hcp with rfl | hcp2
        · exact hnotfl
        · exact h2 PartyId.maker c hcp2
      · rw [if_neg hp] at hcp
        exact h2 p c hcp
    · intro p c hcp
      simp only [Function.update_apply] at hcp
      by_cases hp : p = PartyId.maker
      · rw [if_pos hp] at hcp
        rcases Finset.mem_insert.mp hcp with rfl | hcp2
        · exact Finset.mem_insert_self cid s.minted
        · exact Finset.mem_insert_of_mem (h3 PartyId.maker c hcp2)
      · rw [if_neg hp] at hcp
        exact Finset.mem_insert_of_mem (h3 p c hcp)
    · intro c hcf
      exact Finset.mem_insert_of_mem (h4 c hcf)
  | debit p₀ c₀ hheld =>
    have hsub : ∀ (x : PartyId) (c : Coin),
        c ∈ Function.update s.pools p₀ ((s.pools p₀).erase c₀) x → c ∈ s.pools x := by
      intro x c hc
      rw [Function.update_apply] at hc
      by_cases hx : x = p₀
      · rw [if_pos hx] at hc
        rw [hx]
        exact Finset.mem_of_mem_erase hc
      · rw [if_neg hx] at hc
        exact hc
    refine ⟨?_, ?_, ?_, ?_⟩
    · exact fun p q hpq c hcp hcq => h1 p q hpq c (hsub p c hcp) (hsub q c hcq)
    · intro p c hcp hcf
      rcases Finset.mem_insert.mp hcf with rfl | hcf2
      · simp only [Function.update_apply] at hcp
        by_cases hp : p = p₀
        · rw [if_pos hp] at hcp
          exact Finset.not_mem_erase c (s.pools p₀) hcp
        · rw [if_neg hp] at hcp
          exact h1 p₀ p (fun hp0 => hp hp0.symm) c hheld hcp
      · exact h2 p c (hsub p c hcp) hcf2
    · exact fun p c hcp => h3 p c (hsub p c hcp)
    · intro c hcf
      rcases Finset.mem_insert.mp hcf with rfl | hcf2
      · exact h3 p₀ c hheld
      · exact h4 c hcf2
  | credit q₀ c₀ hfl =>
    have hnp : ∀ p : PartyId, c₀ ∉ s.pools p := fun p hp => h2 p c₀ hp hfl
    refine ⟨?_, ?_, ?_, ?_⟩
    · intro p q hpq c hcp hcq
      simp only [Function.update_apply] at hcp hcq
      by_cases hp : p = q₀
      · rw [if_pos hp] at hcp
        have hq : ¬q = q₀ := fun hq => hpq (hp.trans hq.symm)
        rw [if_neg hq] at hcq
        rcases Finset.mem_insert.mp hcp with rfl | hcp2
        · exact hnp q hcq
        · exact h1 q₀ q (fun hq0 => hpq (hp.trans hq0)) c hcp2 hcq
      · rw [if_neg hp] at hcp
        by_cases hq : q = q₀
        · rw [if_pos hq] at hcq
          rcases Finset.mem_insert.mp hcq with rfl | hcq2
          · exact hnp p hcp
          · exact h1 p q₀ hp c hcp hcq2
        · rw [if_neg hq] at hcq
          exact h1 p q hpq c hcp hcq
    · intro p c hcp hcf
      have hcf2 := Finset.mem_of_mem_erase hcf
      have hne := (Finset.mem_erase.mp hcf).1
      simp only [Function.update_apply] at hcp
      by_cases hp : p = q₀
      · rw [if_pos hp] at hcp
        rcases Finset.mem_insert.mp hcp with rfl | hcp2
        · exact hne rfl
        · exact h2 q₀ c hcp2 hcf2
      · rw [if_neg hp] at hcp
        exact h2 p c hcp hcf2
    · intro p c hcp
      simp only [Function.update_apply] at hcp
      by_cases hp : p = q₀
      · rw [if_pos hp] at hcp
        rcases Finset.mem_insert.mp hcp with rfl | hcp2
        · exact h4 c hfl
        · exact h3 q₀ c hcp2
      · rw [if_neg hp] at hcp
        exact h3 p c hcp
    · exact fun c hcf => h4 c (Finset.mem_of_mem_erase hcf)

/-- Claim C7: in every state reachable by the mint, debit (send) and
credit operations of the orchestrated scenario, each coin is present in at
most one party's held set: two pools containing the same coin must be the
same party's pool, at every intermediate state included. -/
theorem kc_C7 (s : SysState) (hs : Reachable s) :
    ∀ (p q : PartyId) (c : Coin), c ∈ s.pools p → c ∈ s.pools q → p = q := by
  have hg : GoodState s := by
    induction hs with
    | init => exact goodState_init
    | step hr hst ih => exact goodState_step ih hst
  intro p q c hcp hcq
  by_contra hpq
  exact hg.1 p q hpq c hcp hcq

/-- Witness for `kc_C7` at the reachable state in which the maker has
minted `exCoin`. -/
theorem kc_C7_witness : PartyId.maker = PartyId.maker := by
  have hstep : Step initState exState1 :=
    Step.mint initState [9] "KC" (by decide)
  exact kc_C7 exState1 (Reachable.step Reachable.init hstep)
    PartyId.maker PartyId.maker exCoin (by decide) (by decide)

/-- Looking up a key just assigned in the dict returns the assigned
value. -/
theorem dictGet_dictInsert_self (d : List (String × Nat)) (k : String) (v : Nat) :
    dictGet (dictInsert d k v) k = some v := by
  induction d with
  | nil => simp [dictInsert, dictGet]
  | cons kv d ih =>
    cases hk : kv.1 == k with
    | true => simp [dictInsert, dictGet, hk]
    | false => simp [dictInsert, dictGet, hk, ih]

/-- Claim C8: for any keys with Alice's key distinct from the maker's,
`Environment.run` completes: the mint and both transfers validate, and in
the final state the maker's balance is 0, Alice's is 0 and Bob's is 1;
the forged attempt at the end — verifying the second transfer's signature
under the maker's public key — fails (`InvalidSignature`), since the
maker never signed that payload. -/
theorem kc_C8 (mk a b : Nat) (mn cn : String) (cid : Bytes) (h : a ≠ mk) :
    ∃ r : RunResult, run (initEnvironment mn cn mk a b) cid = some r ∧
      r.env.coin_maker.balance = 0 ∧
      r.env.alice.balance = 0 ∧
      r.env.bob.balance = 1 ∧
      r.forged_ok = false ∧
      r.env.ledger = [r.transaction0, r.transaction1, r.transaction2] ∧
      validate [r.transaction0, r.transaction1] r.transaction1 = .ok ∧
      validate r.env.ledger r.transaction2 = .ok := by
  have hamk : (a == mk) = false := by simpa using h
  simp [run, initEnvironment, getPublicKeys, mintSingleCoin, coinMakerSend,
    coinMakerSendTx, personSend, personSendTx, validate, validateLoop, verify, sign,
    pem, pubOf, Party.pubKey, Party.ref, Party.balance, dictGet_dictInsert_self,
    hamk, Finset.erase_insert, RunResult.mk.injEq]

/-- Witness for `kc_C8` at concrete keys 0, 1, 2 and coin id `[9]`. -/
theorem kc_C8_witness :
    ((1 : Nat) ≠ 0) ∧
    (∃ r : RunResult, run (initEnvironment "Mint" "KC" 0 1 2) [9] = some r ∧
      r.env.coin_maker.balance = 0 ∧
      r.env.alice.balance = 0 ∧
      r.env.bob.balance = 1 ∧
      r.forged_ok = false ∧
      r.env.ledger = [r.transaction0, r.transaction1, r.transaction2] ∧
      validate [r.transaction0, r.transaction1] r.transaction1 = .ok ∧
      validate r.env.ledger r.transaction2 = .ok) :=
  ⟨by decide, kc_C8 0 1 2 "Mint" "KC" [9] (by decide)⟩

/-- Claim C10: on an empty ledger, `Environment.validate`
unconditionally reads `self.ledger[-1]`, so every call raises
`IndexError` instead of returning a domain verdict: a non-empty ledger is
an undocumented precondition. -/
theorem kc_C10 (t : Transaction) : validate [] t = .indexError := rfl

end KingCoin
